import Mathlib

/-!
Shallow embedding of `cs282rl/domains/maze.py`: a deterministic grid-world
reinforcement-learning environment with optional action noise.

Modelling conventions:
* A maze position is a pair of integers `(y, x)` (row, column); increasing `y`
  is South.  Positions stored in the environment state are natural-number
  pairs, since every reachable stored position is in bounds.
* The numpy `RandomState` is modelled as two explicit streams of draws (one of
  rationals in `[0,1)` for `rand()`, one of naturals for `choice(n)`, which
  returns the draw modulo `n`) together with a cursor; every draw advances the
  cursor, so "the random source was not consulted" is "the cursor and streams
  are unchanged".  `choice(0)` raises a `ValueError` in numpy, modelled as
  `none`.
* Python `dict.get(k, 0)` on the rewards dict becomes lookup in an
  association list with default `0`.
* Fallible operations (out-of-bounds indexing, list `IndexError`,
  `choice(0)`) return `Option`; `none` models the raised exception.
* Cell labels are characters (numpy yields length-1 strings); when used as
  keys of the rewards mapping they are converted with `Char.toString`, so
  cell labels and event tags share one string namespace as in the source.
-/

/-- `parse_topology`: turn a list of row strings into a grid of characters
(`np.array([list(row) for row in topology])`). -/
def parse_topology (topology : List String) : List (List Char) :=
  topology.map (fun row => row.toList)

/-- `Maze`: wrapper around the 2-D grid of cell labels. -/
structure Maze where
  topology : List (List Char)
deriving Repr, DecidableEq

/-- Number of rows of the maze (`shape[0]`). -/
def Maze.rows (m : Maze) : Nat := m.topology.length

/-- Number of columns of the maze (`shape[1]`; numpy's shape of a rectangular
grid, i.e. the common row length, read off the first row). -/
def Maze.cols (m : Maze) : Nat := (m.topology.headD []).length

/-- `Maze.shape`. -/
def Maze.shape (m : Maze) : Nat × Nat := (m.rows, m.cols)

/-- `Maze.in_bounds`: every coordinate is `≥ 0` and `<` the matching shape
entry. -/
def Maze.in_bounds (m : Maze) (position : Int × Int) : Bool :=
  0 ≤ position.1 && 0 ≤ position.2 &&
    position.1 < (m.rows : Int) && position.2 < (m.cols : Int)

/-- `Maze.__getitem__`: raises `IndexError` (here `none`) when out of bounds,
otherwise returns the cell label.  On the rectangular grids numpy accepts,
the in-bounds lookup always finds a cell, so the `getD` defaults are never
reached. -/
def Maze.getitem (m : Maze) (position : Int × Int) : Option Char :=
  if m.in_bounds position then
    some ((m.topology.getD position.1.toNat []).getD position.2.toNat ' ')
  else
    none

/-- `Maze.positions_containing`: all positions whose label equals `x`, in
row-major scan order (`np.transpose(np.nonzero(topology == x))`). -/
def Maze.positions_containing (m : Maze) (x : Char) : List (Nat × Nat) :=
  (List.range m.rows).flatMap (fun y =>
    (List.range m.cols).filterMap (fun c =>
      if m.getitem (Int.ofNat y, Int.ofNat c) = some x then some (y, c) else none))

/-- `maze_actions`: the direction-to-displacement dictionary, `(Δy, Δx)`. -/
def maze_actions (direction : Char) : Option (Int × Int) :=
  if direction = 'N' then some (-1, 0)
  else if direction = 'S' then some (1, 0)
  else if direction = 'E' then some (0, 1)
  else if direction = 'W' then some (0, -1)
  else none

/-- `self.actions = [maze_actions[direction] for direction in "NSEW"]`. -/
def actions_list : List (Int × Int) :=
  "NSEW".toList.filterMap maze_actions

/-- `self.num_actions = len(self.actions)`. -/
def num_actions : Nat := actions_list.length

/-- `move_avoiding_walls`: pure transition function.  The wall test is only
evaluated when the candidate is in bounds (Python short-circuit), which the
disjunction here reflects: out of bounds already settles the condition. -/
def move_avoiding_walls (maze : Maze) (position : Int × Int)
    (action : Int × Int) : (Int × Int) × String :=
  let new_position : Int × Int := (position.1 + action.1, position.2 + action.2)
  if ¬ maze.in_bounds new_position ∨ maze.getitem new_position = some '#' then
    (position, "hit-wall")
  else
    (new_position, "moved")

/-- The numpy `RandomState`, modelled as explicit streams of draws with a
cursor.  `floatSeq` feeds `rand()`, `natSeq` feeds `choice(n)`. -/
structure RNG where
  floatSeq : Nat → Rat
  natSeq : Nat → Nat
  pos : Nat

/-- `random_state.rand()`: one uniform draw, advancing the cursor. -/
def RNG.rand (r : RNG) : Rat × RNG :=
  (r.floatSeq r.pos, { r with pos := r.pos + 1 })

/-- `random_state.choice(n)`: a uniform draw in `[0, n)`, advancing the
cursor; `choice(0)` raises `ValueError` in numpy, modelled as `none`. -/
def RNG.choice (r : RNG) (n : Nat) : Option (Nat × RNG) :=
  if n = 0 then none
  else some (r.natSeq r.pos % n, { r with pos := r.pos + 1 })

/-- `rewards.get(key, 0)`. -/
def rewards_get (rewards : List (String × Int)) (key : String) : Int :=
  ((rewards.lookup key).getD 0)

/-- Python list indexing `l[i]`: non-negative indices from the front,
negative indices from the back, `IndexError` (`none`) outside
`[-len, len)`. -/
def pylist_get {α : Type} (l : List α) (i : Int) : Option α :=
  if 0 ≤ i then l.get? i.toNat
  else if -(l.length : Int) ≤ i then l.get? (i + l.length).toNat
  else none

/-- `GridWorld.GOAL_MARKER`. -/
def GOAL_MARKER : Char := '*'

/-- The `GridWorld` environment state: topology, configuration, current
position (`none` is the internal end-of-episode marker `state=None`), and
the random source. -/
structure GridWorld where
  maze : Maze
  absorbing_end_state : Bool
  rewards : List (String × Int)
  action_error_prob : Rat
  random_state : RNG
  state : Option (Nat × Nat)

/-- `self.num_states`: `rows * cols`, plus one for the virtual absorbing end
state when configured. -/
def GridWorld.num_states (g : GridWorld) : Nat :=
  g.maze.shape.1 * g.maze.shape.2 + (if g.absorbing_end_state then 1 else 0)

/-- `GridWorld.reset`: pick a random `'o'` cell as the new position.  With no
`'o'` cell, `positions_containing` is empty and `choice(0)` raises
(`none`). -/
def GridWorld.reset (g : GridWorld) : Option GridWorld :=
  let options := g.maze.positions_containing 'o'
  (g.random_state.choice options.length).map (fun kr =>
    { g with state := some (options.getD kr.1 (0, 0)), random_state := kr.2 })

/-- `GridWorld.observe`: flattened row-major index of the current position
(`np.ravel_multi_index(self.state, self.maze.shape)`), or the terminal
observation. -/
def GridWorld.observe (g : GridWorld) : Option Nat :=
  match g.state with
  | none =>
      if g.absorbing_end_state then some (g.num_states - 1) else none
  | some yx => some (yx.1 * g.maze.shape.2 + yx.2)

/-- Lines 139-141 of `perform_action`: with probability `action_error_prob`
(and only when that probability is nonzero, by Python truthiness) replace the
requested action index with a uniformly random one.  Returns the index that
will be used plus the random source as left by the draws. -/
def GridWorld.resolve_action (g : GridWorld) (action_idx : Int) :
    Option (Int × RNG) :=
  if g.action_error_prob ≠ 0 then
    let ur := g.random_state.rand
    if ur.1 < g.action_error_prob then
      (ur.2.choice num_actions).map (fun kr => ((kr.1 : Int), kr.2))
    else
      some (action_idx, ur.2)
  else
    some (action_idx, g.random_state)

/-- `GridWorld.perform_action`: one environment step.  `none` models a raised
exception (`IndexError` on the action list or on the maze). -/
def GridWorld.perform_action (g : GridWorld) (action_idx : Int) :
    Option (GridWorld × (Option Nat × Int)) :=
  match g.state with
  | none => some (g, (g.observe, 0))
  | some p =>
      (g.resolve_action action_idx).bind (fun ir =>
        (pylist_get actions_list ir.1).bind (fun action =>
          let mv := move_avoiding_walls g.maze ((p.1 : Int), (p.2 : Int)) action
          (g.maze.getitem mv.1).map (fun label =>
            let reward :=
              rewards_get g.rewards label.toString + rewards_get g.rewards mv.2
            let final_state : Option (Nat × Nat) :=
              if label = GOAL_MARKER then none
              else some (mv.1.1.toNat, mv.1.2.toNat)
            let g' := { g with state := final_state, random_state := ir.2 }
            (g', (g'.observe, reward)))))

/-- A concrete maze used for witnesses: the test maze of the repository. -/
def test_maze : Maze :=
  { topology := parse_topology ["###", "#o#", "#*#", "###"] }

/-- A constant random source (all draws are 0). -/
def zero_rng : RNG :=
  { floatSeq := fun _ => 0, natSeq := fun _ => 0, pos := 0 }

/-- A concrete environment on `test_maze`, positioned at the origin cell. -/
def test_env : GridWorld :=
  { maze := test_maze
    absorbing_end_state := false
    rewards := [("*", 10)]
    action_error_prob := 0
    random_state := zero_rng
    state := some (1, 1) }

/-- `test_env` after the episode has ended. -/
def test_env_ended : GridWorld :=
  { test_env with state := none }

/-- A second random source, used to show randomness does not influence
deterministic runs. -/
def alt_rng : RNG :=
  { floatSeq := fun _ => 1 / 2, natSeq := fun _ => 3, pos := 5 }

/-- `test_env` with a different random source. -/
def test_env_alt : GridWorld :=
  { test_env with random_state := alt_rng }

/-- The environment produced by `test_env.reset` (the only origin is
`(1, 1)`; one `choice` draw is consumed). -/
def test_env_reset : GridWorld :=
  { test_env with random_state := { zero_rng with pos := 1 } }

/-- An environment whose maze has no origin cell. -/
def no_origin_env : GridWorld :=
  { test_env with maze := { topology := parse_topology ["##", "##"] } }

/-- The state invariant of a stored coordinate: it is in bounds and its cell
is not the goal marker. -/
def position_ok (g : GridWorld) (p : Nat × Nat) : Prop :=
  g.maze.in_bounds (Int.ofNat p.1, Int.ofNat p.2) = true ∧
    g.maze.getitem (Int.ofNat p.1, Int.ofNat p.2) ≠ some GOAL_MARKER

/-- The environment invariant: whenever the current position is a
coordinate, it satisfies `position_ok`. -/
def state_inv (g : GridWorld) : Prop :=
  ∀ p, g.state = some p → position_ok g p

/-- `observe` with the fields it reads made explicit (used to compare runs of
environments that differ only in their random source). -/
def obs_of (m : Maze) (ab : Bool) (st : Option (Nat × Nat)) : Option Nat :=
  match st with
  | none =>
      if ab then some (m.shape.1 * m.shape.2 + (if ab then 1 else 0) - 1)
      else none
  | some yx => some (yx.1 * m.shape.2 + yx.2)

example : test_env.observe = some 4 := by decide
example : actions_list = [(-1, 0), (1, 0), (0, 1), (0, -1)] := by decide

/-! ### Helper lemmas -/

theorem getitem_isSome_iff (m : Maze) (q : Int × Int) :
    (m.getitem q).isSome = m.in_bounds q := by
  unfold Maze.getitem
  split
  · next h => simp [h]
  · next h => simp [Bool.eq_false_iff.mpr h]

theorem in_bounds_of_getitem_some {m : Maze} {q : Int × Int} {c : Char}
    (h : m.getitem q = some c) : m.in_bounds q = true := by
  rw [← getitem_isSome_iff, h]
  rfl

theorem in_bounds_nonneg {m : Maze} {q : Int × Int}
    (h : m.in_bounds q = true) : 0 ≤ q.1 ∧ 0 ≤ q.2 := by
  unfold Maze.in_bounds at h
  simp only [Bool.and_eq_true, decide_eq_true_eq] at h
  exact ⟨h.1.1.1, h.1.1.2⟩

theorem getitem_cast_toNat {m : Maze} {q : Int × Int} {c : Char}
    (h : m.getitem q = some c) :
    m.getitem (Int.ofNat q.1.toNat, Int.ofNat q.2.toNat) = some c := by
  obtain ⟨h1, h2⟩ := in_bounds_nonneg (in_bounds_of_getitem_some h)
  rw [Int.ofNat_eq_coe, Int.ofNat_eq_coe, Int.toNat_of_nonneg h1,
    Int.toNat_of_nonneg h2]
  exact h

theorem mem_positions_containing {m : Maze} {x : Char} {p : Nat × Nat}
    (h : p ∈ m.positions_containing x) :
    m.getitem (Int.ofNat p.1, Int.ofNat p.2) = some x := by
  unfold Maze.positions_containing at h
  simp only [List.mem_flatMap, List.mem_filterMap, List.mem_range] at h
  obtain ⟨y, _, c, _, hc⟩ := h
  by_cases hg : m.getitem (Int.ofNat y, Int.ofNat c) = some x
  · rw [if_pos hg] at hc
    cases hc
    exact hg
  · rw [if_neg hg] at hc
    cases hc

theorem move_result_in_bounds (m : Maze) (p a : Int × Int)
    (hp : m.in_bounds p = true) :
    m.in_bounds (move_avoiding_walls m p a).1 = true := by
  simp only [move_avoiding_walls]
  split
  · exact hp
  · next h =>
    rw [not_or] at h
    exact of_not_not h.1

theorem resolve_action_zero (g : GridWorld) (i : Int)
    (h : g.action_error_prob = 0) :
    g.resolve_action i = some (i, g.random_state) := by
  unfold GridWorld.resolve_action
  rw [if_neg]
  simp [h]

theorem perform_action_eq (g : GridWorld) (i : Int) (p : Nat × Nat)
    (hs : g.state = some p) :
    g.perform_action i =
      (g.resolve_action i).bind (fun ir =>
        (pylist_get actions_list ir.1).bind (fun action =>
          let mv := move_avoiding_walls g.maze ((p.1 : Int), (p.2 : Int)) action
          (g.maze.getitem mv.1).map (fun label =>
            let reward :=
              rewards_get g.rewards label.toString + rewards_get g.rewards mv.2
            let final_state : Option (Nat × Nat) :=
              if label = GOAL_MARKER then none
              else some (mv.1.1.toNat, mv.1.2.toNat)
            let g' := { g with state := final_state, random_state := ir.2 }
            (g', (g'.observe, reward))))) := by
  unfold GridWorld.perform_action
  rw [hs]

theorem perform_action_success (g : GridWorld) (i : Int) (p : Nat × Nat)
    (hs : g.state = some p) (g' : GridWorld) (o : Option Nat) (r : Int)
    (h : g.perform_action i = some (g', (o, r))) :
    ∃ idx rng action label,
      g.resolve_action i = some (idx, rng) ∧
      pylist_get actions_list idx = some action ∧
      g.maze.getitem
        (move_avoiding_walls g.maze ((p.1 : Int), (p.2 : Int)) action).1
        = some label ∧
      g' = { g with
              state := if label = GOAL_MARKER then none
                       else some
                         ((move_avoiding_walls g.maze ((p.1 : Int), (p.2 : Int))
                            action).1.1.toNat,
                          (move_avoiding_walls g.maze ((p.1 : Int), (p.2 : Int))
                            action).1.2.toNat),
              random_state := rng } ∧
      r = rewards_get g.rewards label.toString +
          rewards_get g.rewards
            (move_avoiding_walls g.maze ((p.1 : Int), (p.2 : Int)) action).2 ∧
      o = g'.observe := by
  rw [perform_action_eq g i p hs] at h
  cases hres : g.resolve_action i with
  | none => rw [hres] at h; cases h
  | some ir =>
    rw [hres] at h
    simp only [Option.some_bind] at h
    cases hact : pylist_get actions_list ir.1 with
    | none => rw [hact] at h; cases h
    | some action =>
      rw [hact] at h
      simp only [Option.some_bind] at h
      cases hget : g.maze.getitem
          (move_avoiding_walls g.maze ((p.1 : Int), (p.2 : Int)) action).1 with
      | none => rw [hget] at h; cases h
      | some label =>
        rw [hget] at h
        simp only [Option.map_some', Option.some.injEq, Prod.mk.injEq] at h
        obtain ⟨hg, ho, hr⟩ := h
        subst hg
        subst ho
        subst hr
        exact ⟨ir.1, ir.2, action, label, rfl, hact, hget, rfl, rfl, rfl⟩

/-! ### Claim theorems -/

/-- C1: for every topology, position `p` and action displacement `a`, if
`p + a` is out of bounds or labelled `'#'`, `move_avoiding_walls` returns
`(p, "hit-wall")`; otherwise it returns `(p + a, "moved")`.  Out-of-bounds
candidates are treated identically to explicit walls. -/
theorem move_avoiding_walls_spec (m : Maze) (p a : Int × Int) :
    ((¬ m.in_bounds (p.1 + a.1, p.2 + a.2) = true ∨
        m.getitem (p.1 + a.1, p.2 + a.2) = some '#') →
      move_avoiding_walls m p a = (p, "hit-wall")) ∧
    (m.in_bounds (p.1 + a.1, p.2 + a.2) = true ∧
        ¬ m.getitem (p.1 + a.1, p.2 + a.2) = some '#' →
      move_avoiding_walls m p a = ((p.1 + a.1, p.2 + a.2), "moved")) := by
  constructor
  · intro h
    simp only [move_avoiding_walls]
    rw [if_pos h]
  · rintro ⟨h1, h2⟩
    simp only [move_avoiding_walls]
    rw [if_neg]
    rw [not_or]
    exact ⟨not_not_intro h1, h2⟩

theorem move_avoiding_walls_spec_witness :
    (¬ test_maze.in_bounds ((1 : Int) + -1, (1 : Int) + 0) = true ∨
        test_maze.getitem ((1 : Int) + -1, (1 : Int) + 0) = some '#') ∧
      move_avoiding_walls test_maze (1, 1) (-1, 0) = ((1, 1), "hit-wall") :=
  ⟨Or.inr (by decide),
    (move_avoiding_walls_spec test_maze (1, 1) (-1, 0)).1 (Or.inr (by decide))⟩

/-- C8: the action set is exactly the four unit displacements in the fixed
canonical order North, South, East, West (indices 0-3), and `num_actions`
is 4. -/
theorem actions_canonical :
    actions_list = [((-1 : Int), (0 : Int)), (1, 0), (0, 1), (0, -1)] ∧
    num_actions = 4 ∧
    maze_actions 'N' = some (-1, 0) ∧ maze_actions 'S' = some (1, 0) ∧
    maze_actions 'E' = some (0, 1) ∧ maze_actions 'W' = some (0, -1) := by
  decide

/-- C4: from the ended state, `perform_action` with any action index is a
no-op: it returns the unchanged environment (so no state or random-source
change), reward 0, and observation `num_states - 1` when
`absorbing_end_state` is true, else the null sentinel. -/
theorem ended_noop (g : GridWorld) (i : Int) (h : g.state = none) :
    g.perform_action i =
      some (g,
        ((if g.absorbing_end_state then some (g.num_states - 1) else none),
          0)) := by
  simp only [GridWorld.perform_action, GridWorld.observe, h]

theorem ended_noop_witness :
    test_env_ended.perform_action 2 =
      some (test_env_ended,
        ((if test_env_ended.absorbing_end_state then
            some (test_env_ended.num_states - 1)
          else none), 0)) :=
  ended_noop test_env_ended 2 rfl

/-- C5: `num_states` equals `rows * cols` plus 1 exactly when
`absorbing_end_state` is true; when the current position is the in-bounds
coordinate `(y, x)`, `observe` returns the row-major index
`y * cols + x`, which lies below `num_states`. -/
theorem observe_spec (g : GridWorld) (y x : Nat) (hs : g.state = some (y, x))
    (hy : y < g.maze.rows) (hx : x < g.maze.cols) :
    g.num_states =
      g.maze.rows * g.maze.cols + (if g.absorbing_end_state then 1 else 0) ∧
    g.observe = some (y * g.maze.cols + x) ∧
    y * g.maze.cols + x < g.num_states := by
  refine ⟨rfl, ?_, ?_⟩
  · simp only [GridWorld.observe, hs, Maze.shape]
  · have e : (y + 1) * g.maze.cols = y * g.maze.cols + g.maze.cols := by ring
    have h1 : y * g.maze.cols + x < (y + 1) * g.maze.cols := by omega
    have h2 : (y + 1) * g.maze.cols ≤ g.maze.rows * g.maze.cols :=
      Nat.mul_le_mul hy (Nat.le_refl _)
    have h3 : g.maze.rows * g.maze.cols ≤ g.num_states :=
      Nat.le_add_right _ _
    omega

theorem observe_spec_witness :
    test_env.num_states =
        test_env.maze.rows * test_env.maze.cols +
          (if test_env.absorbing_end_state then 1 else 0) ∧
      test_env.observe = some (1 * test_env.maze.cols + 1) ∧
      1 * test_env.maze.cols + 1 < test_env.num_states :=
  observe_spec test_env 1 1 rfl (by decide) (by decide)

theorem reset_success (g g' : GridWorld) (h : g.reset = some g') :
    ∃ p, g'.state = some p ∧ p ∈ g.maze.positions_containing 'o' ∧
      g'.maze = g.maze := by
  simp only [GridWorld.reset] at h
  cases hc : g.random_state.choice (g.maze.positions_containing 'o').length with
  | none => rw [hc] at h; cases h
  | some kr =>
    rw [hc] at h
    simp only [Option.map_some', Option.some.injEq] at h
    subst h
    have hlen : (g.maze.positions_containing 'o').length ≠ 0 := by
      intro h0
      rw [RNG.choice, if_pos h0] at hc
      cases hc
    have hk : kr.1 < (g.maze.positions_containing 'o').length := by
      rw [RNG.choice, if_neg hlen] at hc
      injection hc with hc
      have hkr : kr.1 = g.random_state.natSeq g.random_state.pos %
          (g.maze.positions_containing 'o').length := by rw [← hc]
      rw [hkr]
      exact Nat.mod_lt _ (Nat.pos_of_ne_zero hlen)
    refine ⟨(g.maze.positions_containing 'o').getD kr.1 (0, 0), rfl, ?_, rfl⟩
    rw [List.getD_eq_getElem _ _ hk]
    exact List.getElem_mem hk

theorem reset_none_iff (g : GridWorld) :
    g.reset = none ↔ g.maze.positions_containing 'o' = [] := by
  simp only [GridWorld.reset]
  constructor
  · intro h
    cases hc : g.random_state.choice (g.maze.positions_containing 'o').length with
    | none =>
      rw [RNG.choice] at hc
      by_cases h0 : (g.maze.positions_containing 'o').length = 0
      · exact List.length_eq_zero.mp h0
      · rw [if_neg h0] at hc
        cases hc
    | some kr =>
      rw [hc] at h
      cases h
  · intro h
    rw [h]
    rfl

theorem perform_action_ended (g : GridWorld) (i : Int) (h : g.state = none) :
    g.perform_action i = some (g, (g.observe, 0)) := by
  simp only [GridWorld.perform_action, h]

/-- C7: `reset` fails exactly when the topology has no `'o'` cell; with at
least one `'o'` cell it sets the current position to one of the positions
labelled `'o'`. -/
theorem reset_spec (g : GridWorld) :
    (g.reset = none ↔ g.maze.positions_containing 'o' = []) ∧
    (∀ g', g.reset = some g' →
      ∃ p, g'.state = some p ∧ p ∈ g.maze.positions_containing 'o') := by
  refine ⟨reset_none_iff g, ?_⟩
  intro g' h
  obtain ⟨p, h1, h2, -⟩ := reset_success g g' h
  exact ⟨p, h1, h2⟩

theorem reset_spec_witness :
    no_origin_env.reset = none ∧
      ∃ p, test_env_reset.state = some p ∧
        p ∈ test_env.maze.positions_containing 'o' :=
  ⟨(reset_spec no_origin_env).1.mpr (by decide),
    (reset_spec test_env).2 test_env_reset rfl⟩

/-- C6: `reset` establishes the state invariant (any stored coordinate is in
bounds and not the goal cell); `perform_action` preserves it for every
successful call; and the ended state is never left by `perform_action`. -/
theorem state_invariant (g g' : GridWorld) (i : Int) :
    (g.reset = some g' → state_inv g') ∧
    (∀ o r, g.perform_action i = some (g', (o, r)) → state_inv g') ∧
    (g.state = none → ∀ o r, g.perform_action i = some (g', (o, r)) →
      g'.state = none) := by
  refine ⟨?_, ?_, ?_⟩
  · intro h
    obtain ⟨p, h1, h2, hm⟩ := reset_success g g' h
    intro q hq
    rw [h1] at hq
    injection hq with hq
    subst hq
    have hgi := mem_positions_containing h2
    refine ⟨?_, ?_⟩
    · rw [hm]
      exact in_bounds_of_getitem_some hgi
    · rw [hm, hgi]
      decide
  · intro o r h
    cases hst : g.state with
    | none =>
      rw [perform_action_ended g i hst] at h
      simp only [Option.some.injEq, Prod.mk.injEq] at h
      obtain ⟨hg, -, -⟩ := h
      intro q hq
      rw [← hg, hst] at hq
      cases hq
    | some p =>
      obtain ⟨idx, rng, action, label, hres, hact, hget, hg, hr, ho⟩ :=
        perform_action_success g i p hst g' o r h
      intro q hq
      subst hg
      by_cases hlab : label = GOAL_MARKER
      · rw [if_pos hlab] at hq
        cases hq
      · rw [if_neg hlab] at hq
        injection hq with hq
        subst hq
        refine ⟨in_bounds_of_getitem_some (getitem_cast_toNat hget), ?_⟩
        intro hcon
        have hcc := (getitem_cast_toNat hget).symm.trans hcon
        injection hcc with hcc
        exact hlab hcc
  · intro hst o r h
    rw [perform_action_ended g i hst] at h
    simp only [Option.some.injEq, Prod.mk.injEq] at h
    obtain ⟨hg, -, -⟩ := h
    rw [← hg]
    exact hst

theorem state_invariant_witness : position_ok test_env_reset (1, 1) :=
  (state_invariant test_env test_env_reset 0).1 rfl (1, 1) rfl

theorem observe_obs_of (g : GridWorld) :
    g.observe = obs_of g.maze g.absorbing_end_state g.state := by
  cases h : g.state with
  | none => simp [GridWorld.observe, obs_of, GridWorld.num_states, h]
  | some yx => simp [GridWorld.observe, obs_of, h]

theorem perform_action_zero_obs (g : GridWorld) (i : Int) (p : Nat × Nat)
    (he : g.action_error_prob = 0) (hs : g.state = some p) :
    (g.perform_action i).map (fun x => (x.2, x.1.state)) =
      (pylist_get actions_list i).bind (fun action =>
        (g.maze.getitem
            (move_avoiding_walls g.maze ((p.1 : Int), (p.2 : Int)) action).1).map
          (fun label =>
            let st : Option (Nat × Nat) :=
              if label = GOAL_MARKER then none
              else some
                ((move_avoiding_walls g.maze ((p.1 : Int), (p.2 : Int))
                    action).1.1.toNat,
                  (move_avoiding_walls g.maze ((p.1 : Int), (p.2 : Int))
                    action).1.2.toNat)
            ((obs_of g.maze g.absorbing_end_state st,
                rewards_get g.rewards label.toString +
                  rewards_get g.rewards
                    (move_avoiding_walls g.maze ((p.1 : Int), (p.2 : Int))
                      action).2),
              st))) := by
  rw [perform_action_eq g i p hs, resolve_action_zero g i he]
  simp only [Option.some_bind]
  cases pylist_get actions_list i with
  | none => rfl
  | some action =>
    simp only [Option.some_bind]
    cases g.maze.getitem
        (move_avoiding_walls g.maze ((p.1 : Int), (p.2 : Int)) action).1 with
    | none => rfl
    | some label =>
      simp only [Option.map_some']
      rw [observe_obs_of]

/-- C2: for every successful `perform_action` call from a non-ended state,
the returned reward is the sum of two independent defaulted lookups in the
rewards mapping: one keyed by the label of the cell at the post-move
position, one keyed by the move outcome tag. -/
theorem reward_additivity (g : GridWorld) (i idx : Int) (rng : RNG)
    (p : Nat × Nat) (action : Int × Int) (g' : GridWorld) (o : Option Nat)
    (r : Int)
    (hs : g.state = some p)
    (hres : g.resolve_action i = some (idx, rng))
    (hact : pylist_get actions_list idx = some action)
    (hrun : g.perform_action i = some (g', (o, r))) :
    ∃ label,
      g.maze.getitem
          (move_avoiding_walls g.maze ((p.1 : Int), (p.2 : Int)) action).1 =
        some label ∧
      r = rewards_get g.rewards label.toString +
          rewards_get g.rewards
            (move_avoiding_walls g.maze ((p.1 : Int), (p.2 : Int)) action).2 := by
  obtain ⟨idx', rng', action', label, hres', hact', hget', hg', hr', ho'⟩ :=
    perform_action_success g i p hs g' o r hrun
  rw [hres] at hres'
  injection hres' with hres'
  obtain ⟨hidx, hrng⟩ := Prod.mk.injEq .. ▸ hres'
  subst hidx
  rw [hact] at hact'
  injection hact' with hact'
  subst hact'
  exact ⟨label, hget', hr'⟩

theorem reward_additivity_witness :
    ∃ label,
      test_env.maze.getitem
          (move_avoiding_walls test_env.maze (1, 1) (-1, 0)).1 = some label ∧
      (0 : Int) = rewards_get test_env.rewards label.toString +
        rewards_get test_env.rewards
          (move_avoiding_walls test_env.maze (1, 1) (-1, 0)).2 :=
  reward_additivity test_env 0 0 zero_rng (1, 1) (-1, 0) test_env (some 4) 0
    rfl rfl rfl rfl

/-- C3: a successful `perform_action` whose post-move cell bears the goal
marker sets the state to ended in that same call, and still returns the
reward for that step, including the goal cell's content reward. -/
theorem goal_termination (g : GridWorld) (i idx : Int) (rng : RNG)
    (p : Nat × Nat) (action : Int × Int) (g' : GridWorld) (o : Option Nat)
    (r : Int)
    (hs : g.state = some p)
    (hres : g.resolve_action i = some (idx, rng))
    (hact : pylist_get actions_list idx = some action)
    (hgoal : g.maze.getitem
        (move_avoiding_walls g.maze ((p.1 : Int), (p.2 : Int)) action).1 =
      some GOAL_MARKER)
    (hrun : g.perform_action i = some (g', (o, r))) :
    g'.state = none ∧
      r = rewards_get g.rewards "*" +
          rewards_get g.rewards
            (move_avoiding_walls g.maze ((p.1 : Int), (p.2 : Int)) action).2 := by
  obtain ⟨idx', rng', action', label, hres', hact', hget', hg', hr', ho'⟩ :=
    perform_action_success g i p hs g' o r hrun
  rw [hres] at hres'
  injection hres' with hres'
  obtain ⟨hidx, hrng⟩ := Prod.mk.injEq .. ▸ hres'
  subst hidx
  rw [hact] at hact'
  injection hact' with hact'
  subst hact'
  have hlab : label = GOAL_MARKER := by
    have hcc := hgoal.symm.trans hget'
    injection hcc with hcc
    exact hcc.symm
  constructor
  · subst hg'
    rw [if_pos hlab]
  · rw [hr', hlab]
    have hstr : GOAL_MARKER.toString = "*" := by decide
    rw [hstr]

theorem goal_termination_witness :
    test_env_ended.state = none ∧
      (10 : Int) = rewards_get test_env.rewards "*" +
        rewards_get test_env.rewards
          (move_avoiding_walls test_env.maze (1, 1) (1, 0)).2 :=
  goal_termination test_env 1 1 zero_rng (1, 1) (1, 0) test_env_ended none 10
    rfl rfl rfl (by decide) rfl

/-- C9: two environments that agree on topology, rewards, absorbing flag and
current coordinate, both with `action_error_prob = 0`, produce the same
observation, reward and post-call position for the same action index even if
their random sources differ; and the random source of the stepped
environment is untouched. -/
theorem deterministic_two_run (g1 g2 : GridWorld) (i : Int) (p : Nat × Nat)
    (g1' : GridWorld) (o1 : Option Nat) (r1 : Int)
    (hm : g1.maze = g2.maze) (hr : g1.rewards = g2.rewards)
    (ha : g1.absorbing_end_state = g2.absorbing_end_state)
    (he1 : g1.action_error_prob = 0) (he2 : g2.action_error_prob = 0)
    (hs1 : g1.state = some p) (hs2 : g2.state = some p)
    (hrun1 : g1.perform_action i = some (g1', (o1, r1))) :
    (g1.perform_action i).map (fun x => (x.2, x.1.state)) =
      (g2.perform_action i).map (fun x => (x.2, x.1.state)) ∧
    g1'.random_state = g1.random_state := by
  constructor
  · rw [perform_action_zero_obs g1 i p he1 hs1,
      perform_action_zero_obs g2 i p he2 hs2, hm, hr, ha]
  · obtain ⟨idx', rng', action', label, hres', hact', hget', hg', hr', ho'⟩ :=
      perform_action_success g1 i p hs1 g1' o1 r1 hrun1
    rw [resolve_action_zero g1 i he1] at hres'
    injection hres' with hres'
    obtain ⟨hidx, hrng⟩ := Prod.mk.injEq .. ▸ hres'
    subst hg'
    exact hrng.symm

theorem deterministic_two_run_witness :
    ((test_env.perform_action 1).map (fun x => (x.2, x.1.state)) =
        (test_env_alt.perform_action 1).map (fun x => (x.2, x.1.state))) ∧
      test_env_ended.random_state = test_env.random_state :=
  deterministic_two_run test_env test_env_alt 1 (1, 1) test_env_ended none 10
    rfl rfl rfl rfl rfl rfl rfl rfl

theorem pylist_get_wrap {α : Type} (l : List α) (i : Int)
    (h1 : -(l.length : Int) ≤ i) (h2 : i < 0) :
    pylist_get l i = pylist_get l (i + l.length) := by
  unfold pylist_get
  rw [if_neg (show ¬ (0 : Int) ≤ i by omega), if_pos h1,
    if_pos (show (0 : Int) ≤ i + l.length by omega)]

/-- C10: with a coordinate state and `action_error_prob = 0`, a negative
action index in `[-4, -1]` is silently accepted: it behaves exactly like the
index plus 4 (Python negative list indexing), and the call succeeds. -/
theorem negative_index_wraps (g : GridWorld) (i : Int) (p : Nat × Nat)
    (he : g.action_error_prob = 0) (hs : g.state = some p)
    (hb : g.maze.in_bounds ((p.1 : Int), (p.2 : Int)) = true)
    (h1 : -4 ≤ i) (h2 : i ≤ -1) :
    g.perform_action i = g.perform_action (i + 4) ∧
      (g.perform_action i).isSome = true := by
  have hlen : ((actions_list.length : Nat) : Int) = 4 := by decide
  have hpl : pylist_get actions_list i = pylist_get actions_list (i + 4) := by
    have hw := pylist_get_wrap actions_list i (by omega) (by omega)
    rw [hlen] at hw
    exact hw
  have heq : g.perform_action i = g.perform_action (i + 4) := by
    rw [perform_action_eq g i p hs, perform_action_eq g (i + 4) p hs,
      resolve_action_zero g i he, resolve_action_zero g (i + 4) he]
    simp only [Option.some_bind]
    rw [hpl]
  refine ⟨heq, ?_⟩
  rw [heq, perform_action_eq g (i + 4) p hs, resolve_action_zero g (i + 4) he]
  simp only [Option.some_bind]
  obtain ⟨action, hact⟩ : ∃ a, pylist_get actions_list (i + 4) = some a := by
    interval_cases i <;> exact ⟨_, rfl⟩
  rw [hact]
  simp only [Option.some_bind]
  have hib : g.maze.in_bounds
      (move_avoiding_walls g.maze ((p.1 : Int), (p.2 : Int)) action).1 = true :=
    move_result_in_bounds _ _ _ hb
  have hgs : (g.maze.getitem
      (move_avoiding_walls g.maze ((p.1 : Int), (p.2 : Int)) action).1).isSome
      = true := by
    rw [getitem_isSome_iff]
    exact hib
  obtain ⟨label, hlab⟩ := Option.isSome_iff_exists.mp hgs
  rw [hlab]
  rfl

theorem negative_index_wraps_witness :
    test_env.perform_action (-4) = test_env.perform_action (-4 + 4) ∧
      (test_env.perform_action (-4)).isSome = true :=
  negative_index_wraps test_env (-4) (1, 1) rfl rfl (by decide) (by decide)
    (by decide)
